import Mathlib

/-!
# Countdown Audio Builder — shallow embedding and verification

This file embeds the core of `countdown_builder.py` (the timeline assembly
engine, the TTS retry/cache layer and the `main` driver) in Lean 4 and proves
properties of the embedding.

Modelling conventions:
* An `AudioSegment` is represented by its duration in integer milliseconds
  (`Nat`); `prep` (normalize / fade / mono / resample) preserves duration, and
  pydub concatenation adds durations, so `combined += seg` becomes
  `track + len`.
* Python floats `interval` and `long_interval` enter the builders only as
  `int(x * 1000)` milliseconds; the embedding stores those milliseconds
  directly (`interval_ms`, `long_interval_ms`) as `Nat`.
* Speech synthesis (`tts_cached` + `prep` seen from the builders) is an oracle
  `tts : String → Option Nat`: `some d` is a synthesized clip of `d` ms,
  `none` is a fatal synthesis failure (the `RuntimeError` raised after the
  retry budget is exhausted), which aborts the build (`Except.error`).
* Every `tts_cached` invocation is recorded in a call trace tagged by its
  call site, so "which site synthesized what" is observable.
* Python integers are `Int` where the source value may be negative
  (`start`, `every_n`, `skip_first_rest`, `speak_interval`, `speak_at`
  entries) and `Nat` for millisecond durations.
-/

/-- One timeline record `{label, start, end}` (milliseconds).  `stop` embeds
the Python dict key `"end"` (a Lean keyword). -/
structure Entry where
  label : String
  start : Nat
  stop : Nat
deriving Repr, DecidableEq

/-- A `tts_cached` invocation, tagged by the call site in the source:
the rest-cue precompute, the lead-in, a spoken count/minute, or the end
phrase. -/
inductive TtsCall where
  | restPre (text : String)
  | leadIn (text : String)
  | spoken (text : String)
  | endPhrase (text : String)
deriving Repr, DecidableEq

/-- The builder state threaded through assembly: `track` is `len(combined)`
(ms), `t_ms` the running offset, `timeline` the cue list, `skipped` the
`skipped_rests` counter, `calls` the trace of `tts_cached` invocations. -/
structure BuildState where
  track : Nat
  t_ms : Nat
  timeline : List Entry
  skipped : Nat
  calls : List TtsCall
deriving Repr, DecidableEq

/-- The `Settings` dataclass.  `interval_ms`/`long_interval_ms` hold
`int(interval * 1000)` / `int(long_interval * 1000)`; `beep_gain` (attenuation
only) and the audio-content parameters do not affect durations and are kept
only where a claim needs them. -/
structure Settings where
  start : Int
  interval_ms : Nat
  long_interval_ms : Nat
  every_n : Int
  lang : String
  tld : String
  beep_freq : Nat
  beep_ms : Nat
  fade_ms : Nat
  outfile : String
  out_bitrate : String
  lead_in : Option String
  lead_in_gap_ms : Nat
  rest_text : String
  skip_first_rest : Int
  end_with : Option String
  mode : String
  speak_interval : Int
  speak_at : Option (List Int)
  minute_text : String
deriving Repr, DecidableEq

/-- Python truthiness of an `Optional[str]`: `None` and `""` are falsy. -/
def strTruthy (o : Option String) : Bool :=
  o.getD "" ≠ ""

/-- Python truthiness of an `Optional[List[int]]`: `None` and `[]` are
falsy (the `if settings.speak_at:` test). -/
def listTruthy (o : Option (List Int)) : Bool :=
  o.getD [] ≠ []

/-- `should_speak_minute` (countdown_builder.py lines 113-120). -/
def should_speak_minute (minute : Int) (s : Settings) : Bool :=
  if listTruthy s.speak_at then
    decide (minute ∈ s.speak_at.getD [])
  else if s.speak_interval > 0 then
    decide (minute % s.speak_interval = 0 ∨ minute = 1)
  else
    true

/-- Python `needle in hay` on strings, via `splitOn` (needle non-empty at
every use site). -/
def strContains (hay needle : String) : Bool :=
  (hay.splitOn needle).length ≠ 1

/-- The spoken text of a minute (lines 155-158): minute 1 singularizes
`"minutes"` inside `minute_text` when present. -/
def minuteSpokenText (s : Settings) (i : Int) : String :=
  if i = 1 then
    if strContains s.minute_text "minutes" then
      "1 " ++ (s.minute_text.replace "minutes" "minute")
    else
      "1 " ++ s.minute_text
  else
    toString i ++ " " ++ s.minute_text

/-- `range(start, 0, -1)` as a list: `[start, start-1, ..., 1]`, empty when
`start ≤ 0`. -/
def countdownList (start : Int) : List Int :=
  (List.range start.toNat).map (fun k => start - k)

/-- Append one segment of length `len` to the track, recording the paired
timeline entry (the Timeline Recorder discipline: `start` is the pre-append
offset, `end` the post-append offset). -/
def appendSeg (st : BuildState) (label : String) (len : Nat) : BuildState :=
  { st with
    track := st.track + len
    t_ms := st.t_ms + len
    timeline := st.timeline ++ [⟨label, st.t_ms, st.t_ms + len⟩] }

/-- One `tts_cached` call from the builders: records the call in the trace,
returns the clip duration, or aborts the build on fatal synthesis failure. -/
def doTts (tts : String → Option Nat) (site : String → TtsCall) (text : String)
    (st : BuildState) : Except String (Nat × BuildState) :=
  let st' := { st with calls := st.calls ++ [site text] }
  match tts text with
  | some n => Except.ok (n, st')
  | none => Except.error ("TTS failed for " ++ text)

/-- The lead-in phase shared by both builders (lines 140-148 / 240-248):
speak the lead-in (when truthy), then the configured gap (when positive). -/
def leadInPhase (s : Settings) (tts : String → Option Nat)
    (st : BuildState) : Except String BuildState :=
  if strTruthy s.lead_in then
    match doTts tts TtsCall.leadIn (s.lead_in.getD "") st with
    | Except.error e => Except.error e
    | Except.ok (ll, st) =>
      let st := appendSeg st (s.lead_in.getD "") ll
      if s.lead_in_gap_ms > 0 then
        Except.ok (appendSeg st "lead_gap" s.lead_in_gap_ms)
      else
        Except.ok st
  else
    Except.ok st

/-- The end-of-countdown handling shared by both loops at `i = 1`
(lines 257-271 / 165-179): speak the optional end phrase, then terminate. -/
def endPhase (s : Settings) (tts : String → Option Nat)
    (st : BuildState) : Except String BuildState :=
  if strTruthy s.end_with then
    match doTts tts TtsCall.endPhrase (s.end_with.getD "") st with
    | Except.error e => Except.error e
    | Except.ok (el, st) => Except.ok (appendSeg st (s.end_with.getD "") el)
  else
    Except.ok st

/-- One iteration of the numbers-mode loop (lines 251-310) at count `i`:
speak `i`; if `i = 1` speak the optional end phrase and stop; otherwise emit
the boundary cue (skipped rest / rest / normal). -/
def stepNumbers (s : Settings) (tts : String → Option Nat)
    (beepLen restLen : Nat) (st : BuildState) (i : Int) :
    Except String BuildState :=
  match doTts tts TtsCall.spoken (toString i) st with
  | Except.error e => Except.error e
  | Except.ok (sp, st) =>
    if i = 1 then
      endPhase s tts (appendSeg st (toString i) sp)
    else if s.every_n > 0 ∧ i % s.every_n = 0 then
      if ((appendSeg st (toString i) sp).skipped : Int) < s.skip_first_rest then
        Except.ok (appendSeg
          (appendSeg
            { appendSeg st (toString i) sp with
              skipped := (appendSeg st (toString i) sp).skipped + 1 }
            "beep_skip_rest" beepLen)
          "pause_skip_rest" s.interval_ms)
      else
        Except.ok (appendSeg
          (appendSeg (appendSeg (appendSeg st (toString i) sp) s.rest_text restLen)
            "beep" beepLen)
          "pause_long" s.long_interval_ms)
    else
      Except.ok (appendSeg (appendSeg (appendSeg st (toString i) sp) "beep" beepLen)
        "pause" s.interval_ms)

/-- The minute-speaking phase of one minutes-mode iteration (lines 153-163):
when `should_speak_minute` holds, synthesize and append the minute speech. -/
def speakPhase (s : Settings) (tts : String → Option Nat) (i : Int)
    (st : BuildState) : Except String BuildState :=
  if should_speak_minute i s then
    match doTts tts TtsCall.spoken (minuteSpokenText s i) st with
    | Except.error e => Except.error e
    | Except.ok (sp, st) => Except.ok (appendSeg st (minuteSpokenText s i) sp)
  else
    Except.ok st

/-- The minutes-mode rest-cue append, embedding `if rest_seg:` Python
truthiness (`None` and a 0 ms segment are both falsy). -/
def restAppend (st : BuildState) (label : String) : Option Nat → BuildState
  | some rl => if rl ≠ 0 then appendSeg st label rl else st
  | none => st

/-- One iteration of the minutes-mode loop (lines 151-219) at minute `i`:
optionally speak the minute; if `i = 1` run the end phase and stop; otherwise
emit the boundary cue (skipped rest / rest / normal), with the minute-scaled
gap (60000 ms when the minute is spoken, `interval` otherwise) on non-rest
and skipped-rest boundaries. -/
def stepMinutes (s : Settings) (tts : String → Option Nat)
    (beepLen : Nat) (restLen : Option Nat) (st : BuildState) (i : Int) :
    Except String BuildState :=
  match speakPhase s tts i st with
  | Except.error e => Except.error e
  | Except.ok st =>
    if i = 1 then
      endPhase s tts st
    else if s.every_n > 0 ∧ i % s.every_n = 0 then
      if (st.skipped : Int) < s.skip_first_rest then
        Except.ok (appendSeg
          (appendSeg { st with skipped := st.skipped + 1 } "beep_skip_rest" beepLen)
          "pause_skip_rest"
          (if should_speak_minute i s then 60000 else s.interval_ms))
      else
        Except.ok (appendSeg (appendSeg (restAppend st s.rest_text restLen) "beep" beepLen)
          "pause_long" s.long_interval_ms)
    else
      Except.ok (appendSeg (appendSeg st "beep" beepLen) "pause"
        (if should_speak_minute i s then 60000 else s.interval_ms))

/-- The empty initial builder state (`combined = silent(0)`, `t_ms = 0`). -/
def initState : BuildState :=
  ⟨0, 0, [], 0, []⟩

/-- Run loop iterations in sequence, stopping at the first fatal synthesis
failure (an uncaught exception ends the `for` loop and the build). -/
def runSteps (step : BuildState → Int → Except String BuildState) :
    List Int → BuildState → Except String BuildState
  | [], st => Except.ok st
  | i :: rest, st =>
    match step st i with
    | Except.error e => Except.error e
    | Except.ok st' => runSteps step rest st'

/-- `build_countdown_audio` (lines 223-314).  The rest cue is synthesized
unconditionally in the precompute (line 230), before the lead-in and main
loop. -/
def build_countdown_audio (s : Settings) (tts : String → Option Nat) :
    Except String BuildState :=
  match doTts tts TtsCall.restPre s.rest_text initState with
  | Except.error e => Except.error e
  | Except.ok (restLen, st) =>
    match leadInPhase s tts st with
    | Except.error e => Except.error e
    | Except.ok st =>
      runSteps (stepNumbers s tts s.beep_ms restLen) (countdownList s.start) st

/-- The minutes-mode precompute (line 130): synthesize the rest cue only when
`every_n > 0`; otherwise `rest_seg = None` and no synthesis call happens (the
result is independent of the oracle). -/
def minutesRestPre (s : Settings) (tts : String → Option Nat) :
    Except String (Option Nat × BuildState) :=
  if s.every_n > 0 then
    match doTts tts TtsCall.restPre s.rest_text initState with
    | Except.error e => Except.error e
    | Except.ok (rl, st) => Except.ok (some rl, st)
  else
    Except.ok (none, initState)

/-- `build_minutes_countdown` (lines 122-221). -/
def build_minutes_countdown (s : Settings) (tts : String → Option Nat) :
    Except String BuildState :=
  match minutesRestPre s tts with
  | Except.error e => Except.error e
  | Except.ok (restLen, st) =>
    match leadInPhase s tts st with
    | Except.error e => Except.error e
    | Except.ok st =>
      runSteps (stepMinutes s tts s.beep_ms restLen) (countdownList s.start) st

/-!
## TTS retry layer (`tts_with_retry_to_audiosegment`, lines 58-72)

Attempt `k` (0-based) is modelled by an oracle `Nat → Option α`; after a
failed attempt that is not the last, the code sleeps `delay * (attempt + 1)`
seconds.  `delay` is a rational (the Python float `1.2` enters only through
these products, whose ordering is the same over `ℚ`).  `retryRun` returns
(result, number of attempts made, list of sleep durations in order).
-/

/-- The retry loop body: `retryRun oracle delay fuel k` runs attempts
`k, k+1, ...` with `fuel` attempts remaining; a failed attempt that is not
the last (`attempt < retries - 1`) sleeps `delay * (attempt + 1)` before the
next one.  Returns (result, attempts made, sleeps performed in order). -/
def retryRun (oracle : Nat → Option α) (delay : ℚ) :
    Nat → Nat → Option α × Nat × List ℚ
  | 0, _ => (none, 0, [])
  | 1, k =>
    match oracle k with
    | some v => (some v, 1, [])
    | none => (none, 1, [])
  | m + 2, k =>
    match oracle k with
    | some v => (some v, 1, [])
    | none =>
      ((retryRun oracle delay (m + 1) (k + 1)).1,
       (retryRun oracle delay (m + 1) (k + 1)).2.1 + 1,
       delay * (k + 1) :: (retryRun oracle delay (m + 1) (k + 1)).2.2)

/-- `tts_with_retry_to_audiosegment`: run up to `retries` attempts from
attempt 0; `Except.error` is the `RuntimeError` raised when every attempt
failed.  Returns (outcome, attempts made, sleeps performed). -/
def tts_with_retry_to_audiosegment (oracle : Nat → Option α)
    (retries : Nat) (delay : ℚ) : Except String α × Nat × List ℚ :=
  ((retryRun oracle delay retries 0).1.elim (Except.error "TTS failed")
     Except.ok,
   (retryRun oracle delay retries 0).2.1,
   (retryRun oracle delay retries 0).2.2)

/-!
## Cache layer (`tts_cached`, lines 74-83)

The cache is a key-indexed store `String → Option β` (`β` = audio bytes);
`md5` is an abstract hash (all theorems hold for every hash function, so in
particular for MD5).  The boolean in the result records whether a fresh
synthesis was performed (the `if not mp3_path.exists()` branch).
-/

/-- The pre-hash cache key string `f"{lang}|{tld}|{text}"` (line 78). -/
def cacheKeyString (lang tld text : String) : String :=
  lang ++ "|" ++ tld ++ "|" ++ text

/-- `tts_cached`: look up `md5(cacheKeyString ...)`; on a miss synthesize,
store, and return the stored bytes; on a hit return the cached bytes with no
synthesis.  Returns (bytes, updated cache, synthesized?). -/
def tts_cached (md5 : String → String) (synth : String → β)
    (cache : String → Option β) (lang tld text : String) :
    β × (String → Option β) × Bool :=
  let key := md5 (cacheKeyString lang tld text)
  match cache key with
  | some b => (b, cache, false)
  | none =>
    let b := synth text
    (b, fun k => if k = key then some b else cache k, true)

/-!
## The `main` driver (lines 378-414)

After the chosen builder returns, `main` exports the audio (WAV then MP3) and
only then writes the timeline JSON sidecar.  A builder failure is an uncaught
exception: no file is written.  `audioExportOk` models the success of the
two-stage audio export (an export exception likewise prevents the sidecar
write).  The result lists the output files written, in write order.
-/

/-- A file produced by `main`: the MP3 output or the `.json` timeline sidecar
(`settings.outfile.with_suffix(".json")`, same base name). -/
inductive FileWrite where
  | audio
  | timeline
deriving Repr, DecidableEq

/-- The builder `main` dispatches to (lines 391-396). -/
def builderFor (s : Settings) (tts : String → Option Nat) :
    Except String BuildState :=
  if s.mode = "minutes" then build_minutes_countdown s tts
  else build_countdown_audio s tts

/-- `main` after argument parsing: build, export audio, then write the
timeline sidecar. -/
def mainRun (s : Settings) (tts : String → Option Nat)
    (audioExportOk : Bool) : List FileWrite × Except String BuildState :=
  match builderFor s tts with
  | Except.error e => ([], Except.error e)
  | Except.ok st =>
    if audioExportOk then
      ([FileWrite.audio, FileWrite.timeline], Except.ok st)
    else
      ([], Except.error "audio export failed")

/-!
## Spec-side definitions and concrete instances
-/

/-- The minute-speaking rule as the spec words it: `m` in the explicit
speak-set when that set is configured (non-empty); otherwise, when
`speak_interval > 0`, true iff `m % speak_interval == 0` or `m == 1`;
otherwise true unconditionally. -/
def speakSpecification (m : Int) (s : Settings) : Prop :=
  if s.speak_at.getD [] ≠ [] then m ∈ s.speak_at.getD []
  else if s.speak_interval > 0 then m % s.speak_interval = 0 ∨ m = 1
  else True

/-- Timeline contiguity from a given offset: each entry starts where the
previous one stopped. -/
def contiguousFrom : Nat → List Entry → Prop
  | _, [] => True
  | t, e :: rest => e.start = t ∧ contiguousFrom e.stop rest

/-- The stop time of the last entry, or `d` for an empty timeline. -/
def lastStop : List Entry → Nat → Nat
  | [], d => d
  | e :: rest, _ => lastStop rest e.stop

/-- The builder-state invariant: the timeline is contiguous from 0, the track
length equals the running offset, the last entry stops at the running offset,
and every entry runs forward in time. -/
def WF (st : BuildState) : Prop :=
  contiguousFrom 0 st.timeline ∧ st.track = st.t_ms ∧
  lastStop st.timeline 0 = st.t_ms ∧ ∀ e ∈ st.timeline, e.start ≤ e.stop

/-- The `parse_args` defaults (lines 320-343), milliseconds precomputed. -/
def defaultSettings : Settings :=
  { start := 80, interval_ms := 3500, long_interval_ms := 8000, every_n := 8
    lang := "en", tld := "com", beep_freq := 1000, beep_ms := 300, fade_ms := 12
    outfile := "countdown_combined.mp3", out_bitrate := "192k"
    lead_in := none, lead_in_gap_ms := 1000, rest_text := "rest"
    skip_first_rest := 0, end_with := none, mode := "numbers"
    speak_interval := 0, speak_at := none, minute_text := "minutes remaining" }

/-- Numbers mode, `start=8, every_n=4, skip_first_rest=1`, no lead-in or end
phrase (the configuration of the `i=4` skip claim). -/
def sNum8 : Settings :=
  { defaultSettings with start := 8, every_n := 4, skip_first_rest := 1 }

/-- A synthesis oracle on which every text succeeds with a 400 ms clip. -/
def ttsAll400 : String → Option Nat := fun _ => some 400

/-- The state built by `build_countdown_audio` on `sNum8` / `ttsAll400`. -/
def stNum8 : BuildState :=
  (build_countdown_audio sNum8 ttsAll400).toOption.getD initState

/-- Numbers mode with `start = 0` (an invalid configuration per the spec). -/
def sStart0 : Settings :=
  { defaultSettings with start := 0 }

/-- A minutes-mode configuration with rests disabled (`every_n = 0`). -/
def sMinNoRest : Settings :=
  { defaultSettings with mode := "minutes", start := 2, every_n := 0 }

/-- An oracle failing exactly on the rest text `"rest"`. -/
def ttsNoRest : String → Option Nat :=
  fun t => if t = "rest" then none else some 500

/-- The state built by `build_minutes_countdown` on `sMinNoRest` with the
rest text failing: the build must not consult it. -/
def stMinNoRest : BuildState :=
  (build_minutes_countdown sMinNoRest ttsNoRest).toOption.getD initState

/-- The state produced by one minutes-mode step at minute 3 of `sMinNoRest`
(a non-rest boundary of a spoken minute). -/
def stMinStep3 : BuildState :=
  (stepMinutes sMinNoRest ttsNoRest 300 none initState 3).toOption.getD initState

/-- The timeline labels of a build outcome, in order. -/
def timelineLabels (x : Except String BuildState) : Option (List String) :=
  x.toOption.map (fun st => st.timeline.map Entry.label)

/-- Numbers mode with rests disabled entirely (`every_n = 0`). -/
def sNumNoRest : Settings :=
  { defaultSettings with every_n := 0 }

/-- An oracle on which every synthesis fails. -/
def ttsNone : String → Option Nat := fun _ => none

/-- A retry oracle whose attempts 0 and 2 fail and whose attempt 1
succeeds. -/
def attemptOracle : Nat → Option Nat :=
  fun j => if j = 1 then some 42 else none

/-!
## Infrastructure lemmas
-/

theorem exceptBindOkNe {α : Type} (e : String) (x : α) :
    (Except.error e : Except String α) ≠ Except.ok x := by
  intro h
  exact Except.noConfusion h

theorem lastStop_append_singleton :
    ∀ (l : List Entry) (e : Entry) (d : Nat), lastStop (l ++ [e]) d = e.stop := by
  intro l
  induction l with
  | nil => intro e d; rfl
  | cons f t ih => intro e d; exact ih e f.stop

theorem getLast?_elim_eq_lastStop :
    ∀ (l : List Entry) (d : Nat), (l.getLast?).elim d Entry.stop = lastStop l d := by
  intro l
  induction l with
  | nil => intro d; rfl
  | cons e rest ih =>
    intro d
    cases rest with
    | nil => rfl
    | cons f t =>
      have hx : ∃ x, (f :: t).getLast? = some x := by
        cases h : (f :: t).getLast? with
        | some x => exact ⟨x, rfl⟩
        | none =>
          have h2 : ((f :: t : List Entry)).getLast?.isSome :=
            (List.getLast?_isSome).mpr (by simp)
          rw [h] at h2
          simp at h2
      obtain ⟨x, hx⟩ := hx
      have h1 : (e :: f :: t).getLast? = some x := by
        rw [List.getLast?_cons_cons, hx]
      have h2 := ih e.stop
      rw [hx] at h2
      rw [h1]
      exact h2

theorem contiguousFrom_append :
    ∀ (l₁ l₂ : List Entry) (t0 : Nat),
      contiguousFrom t0 (l₁ ++ l₂) ↔
        contiguousFrom t0 l₁ ∧ contiguousFrom (lastStop l₁ t0) l₂ := by
  intro l₁
  induction l₁ with
  | nil => intro l₂ t0; simp [contiguousFrom, lastStop]
  | cons e rest ih =>
    intro l₂ t0
    rw [List.cons_append]
    rw [show contiguousFrom t0 (e :: (rest ++ l₂)) =
          (e.start = t0 ∧ contiguousFrom e.stop (rest ++ l₂)) from rfl]
    rw [show contiguousFrom t0 (e :: rest) =
          (e.start = t0 ∧ contiguousFrom e.stop rest) from rfl]
    rw [show lastStop (e :: rest) t0 = lastStop rest e.stop from rfl]
    rw [ih]
    exact and_assoc.symm

theorem WF_initState : WF initState := by
  refine ⟨trivial, rfl, rfl, ?_⟩
  intro e he
  simp [initState] at he

theorem WF_appendSeg {st : BuildState} (h : WF st) (lab : String) (len : Nat) :
    WF (appendSeg st lab len) := by
  obtain ⟨hc, htr, hls, hord⟩ := h
  refine ⟨?_, ?_, ?_, ?_⟩
  · show contiguousFrom 0 (st.timeline ++ [⟨lab, st.t_ms, st.t_ms + len⟩])
    rw [contiguousFrom_append]
    exact ⟨hc, by rw [hls]; exact ⟨rfl, trivial⟩⟩
  · show st.track + len = st.t_ms + len
    rw [htr]
  · show lastStop (st.timeline ++ [⟨lab, st.t_ms, st.t_ms + len⟩]) 0 = st.t_ms + len
    rw [lastStop_append_singleton]
  · intro e he
    rcases List.mem_append.mp he with h1 | h1
    · exact hord e h1
    · rcases List.mem_singleton.mp h1 with rfl
      exact Nat.le_add_right _ _

theorem WF_setCalls {st : BuildState} (h : WF st) (c : List TtsCall) :
    WF { st with calls := c } := h

theorem WF_setSkipped {st : BuildState} (h : WF st) (k : Nat) :
    WF { st with skipped := k } := h

theorem doTts_spec (tts : String → Option Nat) (site : String → TtsCall)
    (text : String) (st : BuildState) :
    doTts tts site text st =
      match tts text with
      | some n => Except.ok (n, { st with calls := st.calls ++ [site text] })
      | none => Except.error ("TTS failed for " ++ text) := rfl

theorem doTts_ok {tts : String → Option Nat} {site : String → TtsCall}
    {text : String} {st : BuildState} {n : Nat} {st' : BuildState}
    (h : doTts tts site text st = Except.ok (n, st')) :
    st' = { st with calls := st.calls ++ [site text] } ∧ tts text = some n := by
  rw [doTts_spec] at h
  cases htext : tts text with
  | none =>
    rw [htext] at h
    exact absurd h (exceptBindOkNe _ _)
  | some m =>
    rw [htext] at h
    simp only [Except.ok.injEq, Prod.mk.injEq] at h
    exact ⟨h.2.symm, congrArg some h.1⟩

theorem WF_doTts {tts : String → Option Nat} {site : String → TtsCall}
    {text : String} {st : BuildState} {n : Nat} {st' : BuildState}
    (h : doTts tts site text st = Except.ok (n, st')) (hwf : WF st) : WF st' := by
  rcases doTts_ok h with ⟨rfl, -⟩
  exact WF_setCalls hwf _

theorem WF_leadInPhase {s : Settings} {tts : String → Option Nat}
    {st st' : BuildState} (h : leadInPhase s tts st = Except.ok st')
    (hwf : WF st) : WF st' := by
  unfold leadInPhase at h
  split at h
  · split at h
    · exact absurd h (exceptBindOkNe _ _)
    · rename_i ll st1 heq
      split at h
      · cases Except.ok.inj h
        exact WF_appendSeg (WF_appendSeg (WF_doTts heq hwf) _ _) _ _
      · cases Except.ok.inj h
        exact WF_appendSeg (WF_doTts heq hwf) _ _
  · cases Except.ok.inj h
    exact hwf


theorem WF_endPhase {s : Settings} {tts : String → Option Nat}
    {st st' : BuildState} (h : endPhase s tts st = Except.ok st')
    (hwf : WF st) : WF st' := by
  unfold endPhase at h
  split at h
  · split at h
    · exact absurd h (exceptBindOkNe _ _)
    · rename_i el st1 heq
      cases Except.ok.inj h
      exact WF_appendSeg (WF_doTts heq hwf) _ _
  · cases Except.ok.inj h
    exact hwf

theorem WF_speakPhase {s : Settings} {tts : String → Option Nat} {i : Int}
    {st st' : BuildState} (h : speakPhase s tts i st = Except.ok st')
    (hwf : WF st) : WF st' := by
  unfold speakPhase at h
  split at h
  · split at h
    · exact absurd h (exceptBindOkNe _ _)
    · rename_i sp st1 heq
      cases Except.ok.inj h
      exact WF_appendSeg (WF_doTts heq hwf) _ _
  · cases Except.ok.inj h
    exact hwf

theorem WF_restAppend {st : BuildState} (hwf : WF st) (label : String) :
    ∀ rl : Option Nat, WF (restAppend st label rl) := by
  intro rl
  cases rl with
  | some r =>
    show WF (if r ≠ 0 then appendSeg st label r else st)
    by_cases hr : r ≠ 0
    · rw [if_pos hr]
      exact WF_appendSeg hwf _ _
    · rw [if_neg hr]
      exact hwf
  | none => exact hwf

theorem WF_stepNumbers {s : Settings} {tts : String → Option Nat}
    {bl rl : Nat} {st : BuildState} {i : Int} {st' : BuildState}
    (h : stepNumbers s tts bl rl st i = Except.ok st')
    (hwf : WF st) : WF st' := by
  unfold stepNumbers at h
  split at h
  · exact absurd h (exceptBindOkNe _ _)
  · rename_i sp st1 heq
    have hwf1 : WF (appendSeg st1 (toString i) sp) :=
      WF_appendSeg (WF_doTts heq hwf) _ _
    split at h
    · exact WF_endPhase h hwf1
    · split at h
      · split at h
        · cases Except.ok.inj h
          exact WF_appendSeg (WF_appendSeg (WF_setSkipped hwf1 _) _ _) _ _
        · cases Except.ok.inj h
          exact WF_appendSeg (WF_appendSeg (WF_appendSeg hwf1 _ _) _ _) _ _
      · cases Except.ok.inj h
        exact WF_appendSeg (WF_appendSeg hwf1 _ _) _ _

theorem WF_stepMinutes {s : Settings} {tts : String → Option Nat}
    {bl : Nat} {rl : Option Nat} {st : BuildState} {i : Int} {st' : BuildState}
    (h : stepMinutes s tts bl rl st i = Except.ok st')
    (hwf : WF st) : WF st' := by
  unfold stepMinutes at h
  split at h
  · exact absurd h (exceptBindOkNe _ _)
  · rename_i st1 heq
    have hwf1 : WF st1 := WF_speakPhase heq hwf
    split at h
    · exact WF_endPhase h hwf1
    · split at h
      · split at h
        · cases Except.ok.inj h
          exact WF_appendSeg (WF_appendSeg (WF_setSkipped hwf1 _) _ _) _ _
        · cases Except.ok.inj h
          exact WF_appendSeg (WF_appendSeg (WF_restAppend hwf1 _ _) _ _) _ _
      · cases Except.ok.inj h
        exact WF_appendSeg (WF_appendSeg hwf1 _ _) _ _

theorem WF_runSteps {step : BuildState → Int → Except String BuildState}
    (hstep : ∀ st i st', step st i = Except.ok st' → WF st → WF st') :
    ∀ (l : List Int) (st st' : BuildState),
      runSteps step l st = Except.ok st' → WF st → WF st' := by
  intro l
  induction l with
  | nil =>
    intro st st' h hwf
    cases Except.ok.inj h
    exact hwf
  | cons i rest ih =>
    intro st st' h hwf
    unfold runSteps at h
    split at h
    · exact absurd h (exceptBindOkNe _ _)
    · rename_i st1 heq
      exact ih st1 st' h (hstep st i st1 heq hwf)

theorem WF_minutesRestPre {s : Settings} {tts : String → Option Nat}
    {rl : Option Nat} {st : BuildState}
    (h : minutesRestPre s tts = Except.ok (rl, st)) : WF st := by
  unfold minutesRestPre at h
  split at h
  · split at h
    · exact absurd h (exceptBindOkNe _ _)
    · rename_i r st1 heq
      have := Except.ok.inj h
      rw [show st = (Prod.mk (some r) st1).2 from (congrArg Prod.snd this).symm]
      exact WF_doTts heq WF_initState
  · have := Except.ok.inj h
    rw [show st = (Prod.mk (none : Option Nat) initState).2 from
      (congrArg Prod.snd this).symm]
    exact WF_initState

theorem WF_build_countdown_audio {s : Settings} {tts : String → Option Nat}
    {st : BuildState} (h : build_countdown_audio s tts = Except.ok st) :
    WF st := by
  unfold build_countdown_audio at h
  split at h
  · exact absurd h (exceptBindOkNe _ _)
  · rename_i rl st1 heq
    split at h
    · exact absurd h (exceptBindOkNe _ _)
    · rename_i st2 heq2
      exact WF_runSteps (fun _ _ _ a b => WF_stepNumbers a b) _ _ _ h
        (WF_leadInPhase heq2 (WF_doTts heq WF_initState))

theorem WF_build_minutes_countdown {s : Settings} {tts : String → Option Nat}
    {st : BuildState} (h : build_minutes_countdown s tts = Except.ok st) :
    WF st := by
  unfold build_minutes_countdown at h
  split at h
  · exact absurd h (exceptBindOkNe _ _)
  · rename_i rl st1 heq
    split at h
    · exact absurd h (exceptBindOkNe _ _)
    · rename_i st2 heq2
      exact WF_runSteps (fun _ _ _ a b => WF_stepMinutes a b) _ _ _ h
        (WF_leadInPhase heq2 (WF_minutesRestPre heq))

theorem cons_getLast?_some (e : Entry) (t : List Entry) :
    ∃ x, (e :: t : List Entry).getLast? = some x := by
  cases h : (e :: t : List Entry).getLast? with
  | some x => exact ⟨x, rfl⟩
  | none =>
    have h2 : ((e :: t : List Entry)).getLast?.isSome :=
      (List.getLast?_isSome).mpr (by simp)
    rw [h] at h2
    simp at h2

theorem contiguousFrom_head :
    ∀ (l : List Entry) (t0 : Nat), contiguousFrom t0 l →
      ∀ h : 0 < l.length, (l.get ⟨0, h⟩).start = t0 := by
  intro l t0 hc h
  cases l with
  | nil => simp at h
  | cons e rest => exact hc.1

theorem contiguousFrom_consec :
    ∀ (l : List Entry) (t0 : Nat), contiguousFrom t0 l →
      ∀ i (h : i + 1 < l.length),
        (l.get ⟨i + 1, h⟩).start = (l.get ⟨i, Nat.lt_of_succ_lt h⟩).stop := by
  intro l
  induction l with
  | nil =>
    intro t0 hc i h
    simp at h
  | cons e rest ih =>
    intro t0 hc i h
    cases i with
    | zero =>
      cases rest with
      | nil => simp at h
      | cons f t => exact hc.2.1
    | succ j =>
      have hj : j + 1 < rest.length := by
        simp only [List.length_cons] at h
        omega
      exact ih e.stop hc.2 j hj

/-!
## Claim theorems
-/

/-- C3: for every configuration and oracle, a successful build in either mode
(numbers or minutes) produces a contiguous, exhaustive timeline: the first
entry starts at 0, each next entry starts where the previous one ended, every
entry runs forward (its `end` is its `start` plus the appended segment's
duration), and the final entry's `end` equals the total track duration (the
empty-timeline case forces a 0-length track). -/
theorem timeline_contiguous_exhaustive (s : Settings) (tts : String → Option Nat)
    (st : BuildState)
    (h : build_countdown_audio s tts = Except.ok st ∨
         build_minutes_countdown s tts = Except.ok st) :
    (∀ hne : 0 < st.timeline.length, (st.timeline.get ⟨0, hne⟩).start = 0) ∧
    (∀ i (hi : i + 1 < st.timeline.length),
        (st.timeline.get ⟨i + 1, hi⟩).start =
          (st.timeline.get ⟨i, Nat.lt_of_succ_lt hi⟩).stop) ∧
    (∀ e ∈ st.timeline, e.start ≤ e.stop) ∧
    (st.timeline.getLast?.elim (st.track = 0) (fun e => e.stop = st.track)) := by
  have hwf : WF st := h.elim WF_build_countdown_audio WF_build_minutes_countdown
  obtain ⟨hc, htr, hls, hord⟩ := hwf
  refine ⟨contiguousFrom_head _ _ hc, contiguousFrom_consec _ _ hc, hord, ?_⟩
  cases htl : st.timeline with
  | nil =>
    show st.track = 0
    rw [htr, ← hls, htl]
    rfl
  | cons e rest =>
    obtain ⟨x, hx⟩ := cons_getLast?_some e rest
    rw [hx]
    show x.stop = st.track
    have h1 := getLast?_elim_eq_lastStop st.timeline 0
    rw [htl, hx] at h1
    have h2 : lastStop st.timeline 0 = lastStop (e :: rest) 0 := by rw [htl]
    rw [h2] at hls
    rw [← h1] at hls
    rw [htr]
    exact hls

/-- Witness for C3 at the concrete `sNum8` numbers-mode build: the final
timeline entry stops exactly at the total track duration. -/
theorem timeline_contiguous_exhaustive_witness :
    stNum8.timeline.getLast?.elim (stNum8.track = 0)
      (fun e => e.stop = stNum8.track) :=
  (timeline_contiguous_exhaustive sNum8 ttsAll400 stNum8 (Or.inl rfl)).2.2.2

/-- C1 counterexample: in numbers mode with `start=8, every_n=4,
skip_first_rest=1`, no lead-in and no end phrase, the boundary right after
count 4 is a true rest cue (rest speech, then "beep", then "pause_long"), not
the claimed `beep_skip_rest`/`pause_skip_rest` pair. -/
theorem skip_rest_at_four_counterexample :
    ((timelineLabels (build_countdown_audio sNum8 ttsAll400)).getD []).getD 12 "" = "4" ∧
    ((timelineLabels (build_countdown_audio sNum8 ttsAll400)).getD []).getD 13 "" = "rest" ∧
    ¬((timelineLabels (build_countdown_audio sNum8 ttsAll400)).getD []).getD 13 "" =
        "beep_skip_rest" ∧
    ¬((timelineLabels (build_countdown_audio sNum8 ttsAll400)).getD []).getD 14 "" =
        "pause_skip_rest" := by
  refine ⟨rfl, rfl, ?_, ?_⟩ <;> decide

/-- C1 amended: with `start=8, every_n=4, skip_first_rest=1`, the first
qualifying rest boundary (at `i=8`) is the suppressed one, labeled
`beep_skip_rest`/`pause_skip_rest`; the next qualifying rest boundary
(at `i=4`) is a true rest cue (rest speech, "beep", "pause_long"). -/
theorem skip_rest_at_eight_amended :
    timelineLabels (build_countdown_audio sNum8 ttsAll400) =
      some ["8", "beep_skip_rest", "pause_skip_rest",
            "7", "beep", "pause",
            "6", "beep", "pause",
            "5", "beep", "pause",
            "4", "rest", "beep", "pause_long",
            "3", "beep", "pause",
            "2", "beep", "pause",
            "1"] := by
  rfl

/-- C2 counterexample: the configuration with `start = 0` (numbers mode, the
`parse_args` defaults otherwise) is not rejected and no error is surfaced:
the build returns successfully with an empty timeline, and speech synthesis
of the rest text did happen before the (empty) countdown. -/
theorem start_nonpositive_counterexample :
    build_countdown_audio sStart0 ttsAll400 =
      Except.ok { track := 0, t_ms := 0, timeline := [], skipped := 0,
                  calls := [TtsCall.restPre "rest"] } ∧
    TtsCall.restPre "rest" ∈
      ((build_countdown_audio sStart0 ttsAll400).toOption.getD initState).calls := by
  exact ⟨rfl, by decide⟩

/-- The countdown loop body never runs for a non-positive start. -/
theorem countdownList_nonpos {start : Int} (h : start ≤ 0) :
    countdownList start = [] := by
  unfold countdownList
  rw [Int.toNat_of_nonpos h]
  rfl

/-- C2 amended: the core performs no validation of `start` (or `interval`):
for any configuration with `start ≤ 0` and no lead-in, and any oracle that
can synthesize the rest text, the numbers-mode build succeeds (no error is
surfaced to the caller) with an empty timeline — after having synthesized the
rest phrase.  (Rejection of `start <= 0` / `interval <= 0` exists only in the
Tk GUI front-end, not in `parse_args` or the builders.) -/
theorem start_nonpositive_amended (s : Settings) (tts : String → Option Nat)
    (r : Nat) (hstart : s.start ≤ 0) (hlead : strTruthy s.lead_in = false)
    (hrest : tts s.rest_text = some r) :
    build_countdown_audio s tts =
      Except.ok { track := 0, t_ms := 0, timeline := [], skipped := 0,
                  calls := [TtsCall.restPre s.rest_text] } := by
  have h1 : doTts tts TtsCall.restPre s.rest_text initState =
      Except.ok (r, { track := 0, t_ms := 0, timeline := [], skipped := 0,
                      calls := [TtsCall.restPre s.rest_text] }) := by
    rw [doTts_spec, hrest]
    rfl
  have h2 : leadInPhase s tts
      { track := 0, t_ms := 0, timeline := [], skipped := 0,
        calls := [TtsCall.restPre s.rest_text] } =
      Except.ok { track := 0, t_ms := 0, timeline := [], skipped := 0,
                  calls := [TtsCall.restPre s.rest_text] } := by
    unfold leadInPhase
    rw [hlead]
    simp
  unfold build_countdown_audio
  rw [h1]
  simp only [h2, countdownList_nonpos hstart, runSteps]

/-- Witness for C2's amended statement at the concrete `start = 0`
configuration. -/
theorem start_nonpositive_amended_witness :
    sStart0.start ≤ 0 ∧
    build_countdown_audio sStart0 ttsAll400 =
      Except.ok { track := 0, t_ms := 0, timeline := [], skipped := 0,
                  calls := [TtsCall.restPre "rest"] } :=
  ⟨by decide, start_nonpositive_amended sStart0 ttsAll400 400 (by decide) rfl rfl⟩

/-- C4: for every minute `m ≥ 1`, `should_speak_minute` decides exactly the
spec's rule: membership in the explicit speak-set when that set is configured
non-empty; otherwise divisibility by `speak_interval` (or `m = 1`) when
`speak_interval > 0`; otherwise true unconditionally. -/
theorem should_speak_minute_correct (m : Int) (s : Settings) (_hm : 1 ≤ m) :
    (should_speak_minute m s = true ↔ speakSpecification m s) := by
  unfold should_speak_minute speakSpecification listTruthy
  by_cases h1 : s.speak_at.getD [] ≠ []
  · simp [h1]
  · by_cases h2 : s.speak_interval > 0
    · simp [h1, h2]
    · simp [h1, h2]

/-- Witness for C4 at minute 3 of the default configuration (no speak-set,
`speak_interval = 0`: every minute is spoken). -/
theorem should_speak_minute_correct_witness :
    (1 : Int) ≤ 3 ∧
    (should_speak_minute 3 defaultSettings = true ↔
      speakSpecification 3 defaultSettings) :=
  ⟨by decide, should_speak_minute_correct 3 defaultSettings (by decide)⟩

theorem getLast?_appendSeg (st : BuildState) (lab : String) (len : Nat) :
    (appendSeg st lab len).timeline.getLast? = some ⟨lab, st.t_ms, st.t_ms + len⟩ := by
  show (st.timeline ++ [(⟨lab, st.t_ms, st.t_ms + len⟩ : Entry)]).getLast? = _
  rw [List.getLast?_concat]

theorem speakPhase_skipped {s : Settings} {tts : String → Option Nat} {i : Int}
    {st st' : BuildState} (h : speakPhase s tts i st = Except.ok st') :
    st'.skipped = st.skipped := by
  unfold speakPhase at h
  split at h
  · split at h
    · exact absurd h (exceptBindOkNe _ _)
    · rename_i sp st1 heq
      cases Except.ok.inj h
      rcases doTts_ok heq with ⟨rfl, -⟩
      rfl
  · cases Except.ok.inj h
    rfl

/-- C5: in minutes mode, at every boundary with minute `i > 1`: on a non-rest
boundary, the appended silence gap is exactly 60000 ms when the minute is
spoken and `interval` ms otherwise; on a rest boundary that is not skipped,
the gap is `long_interval` ms regardless of speaking. -/
theorem minutes_gap_correct (s : Settings) (tts : String → Option Nat)
    (bl : Nat) (rl : Option Nat) (st : BuildState) (i : Int) (st' : BuildState)
    (hi : 1 < i) (h : stepMinutes s tts bl rl st i = Except.ok st') :
    (¬(s.every_n > 0 ∧ i % s.every_n = 0) →
       st'.timeline.getLast?.map Entry.label = some "pause" ∧
       st'.timeline.getLast?.map (fun e => e.stop - e.start) =
         some (if should_speak_minute i s then 60000 else s.interval_ms)) ∧
    ((s.every_n > 0 ∧ i % s.every_n = 0) →
     ¬((st.skipped : Int) < s.skip_first_rest) →
       st'.timeline.getLast?.map Entry.label = some "pause_long" ∧
       st'.timeline.getLast?.map (fun e => e.stop - e.start) =
         some s.long_interval_ms) := by
  unfold stepMinutes at h
  split at h
  · exact absurd h (exceptBindOkNe _ _)
  · rename_i st1 heq
    have hskip : st1.skipped = st.skipped := speakPhase_skipped heq
    split at h
    · rename_i h1
      omega
    · split at h
      · rename_i hb
        refine ⟨fun hnb => absurd hb hnb, fun _ hns => ?_⟩
        split at h
        · rename_i hlt
          rw [hskip] at hlt
          exact absurd hlt hns
        · cases Except.ok.inj h
          rw [getLast?_appendSeg]
          constructor
          · rfl
          · simp
      · rename_i hb
        refine ⟨fun _ => ?_, fun hb2 => absurd hb2 hb⟩
        cases Except.ok.inj h
        rw [getLast?_appendSeg]
        constructor
        · rfl
        · simp

/-- Witness for C5 at minute 3 of `sMinNoRest` (rests disabled, minute 3
spoken): the final appended entry is a 60000 ms "pause". -/
theorem minutes_gap_correct_witness :
    stMinStep3.timeline.getLast?.map Entry.label = some "pause" ∧
    stMinStep3.timeline.getLast?.map (fun e => e.stop - e.start) = some 60000 :=
  (minutes_gap_correct sMinNoRest ttsNoRest 300 none initState 3 stMinStep3
    (by decide) rfl).1 (by decide)


theorem retryRun_zero {α : Type} (oracle : Nat → Option α) (delay : ℚ) (k : Nat) :
    retryRun oracle delay 0 k = (none, 0, []) := rfl

theorem retryRun_succ_some {α : Type} {oracle : Nat → Option α} (delay : ℚ)
    {k : Nat} {v : α} (fuel : Nat) (ho : oracle k = some v) :
    retryRun oracle delay (fuel + 1) k = (some v, 1, []) := by
  cases fuel with
  | zero => simp only [retryRun, ho]
  | succ m => simp only [retryRun, ho]

theorem retryRun_one_none {α : Type} {oracle : Nat → Option α} (delay : ℚ)
    {k : Nat} (ho : oracle k = none) :
    retryRun oracle delay 1 k = (none, 1, []) := by
  simp only [retryRun, ho]

theorem retryRun_two_none {α : Type} {oracle : Nat → Option α} (delay : ℚ)
    {k : Nat} (m : Nat) (ho : oracle k = none) :
    retryRun oracle delay (m + 2) k =
      ((retryRun oracle delay (m + 1) (k + 1)).1,
       (retryRun oracle delay (m + 1) (k + 1)).2.1 + 1,
       delay * (k + 1) :: (retryRun oracle delay (m + 1) (k + 1)).2.2) := by
  simp only [retryRun, ho]

theorem retryRun_attempts_le {α : Type} (oracle : Nat → Option α) (delay : ℚ) :
    ∀ fuel k, (retryRun oracle delay fuel k).2.1 ≤ fuel := by
  intro fuel
  induction fuel with
  | zero => intro k; rw [retryRun_zero]
  | succ n ih =>
    intro k
    cases ho : oracle k with
    | some v =>
      rw [retryRun_succ_some delay n ho]
      show 1 ≤ n + 1
      omega
    | none =>
      cases n with
      | zero => rw [retryRun_one_none delay ho]
      | succ m =>
        rw [retryRun_two_none delay m ho]
        show (retryRun oracle delay (m + 1) (k + 1)).2.1 + 1 ≤ m + 1 + 1
        have := ih (k + 1)
        omega

theorem retryRun_sleeps_head {α : Type} (oracle : Nat → Option α) (delay : ℚ) :
    ∀ fuel k y, ((retryRun oracle delay fuel k).2.2).head? = some y →
      y = delay * (k + 1) := by
  intro fuel k y h
  cases fuel with
  | zero => rw [retryRun_zero] at h; simp at h
  | succ n =>
    cases ho : oracle k with
    | some v => rw [retryRun_succ_some delay n ho] at h; simp at h
    | none =>
      cases n with
      | zero => rw [retryRun_one_none delay ho] at h; simp at h
      | succ m =>
        rw [retryRun_two_none delay m ho] at h
        have h2 : (delay * (k + 1) ::
            (retryRun oracle delay (m + 1) (k + 1)).2.2).head? =
            some (delay * ((k : ℚ) + 1)) := rfl
        rw [h2] at h
        exact (Option.some.inj h).symm

theorem retryRun_sleeps_chain {α : Type} (oracle : Nat → Option α) (delay : ℚ)
    (hd : 0 < delay) :
    ∀ fuel k, List.Chain' (· < ·) (retryRun oracle delay fuel k).2.2 := by
  intro fuel
  induction fuel with
  | zero => intro k; rw [retryRun_zero]; simp
  | succ n ih =>
    intro k
    cases ho : oracle k with
    | some v => rw [retryRun_succ_some delay n ho]; simp
    | none =>
      cases n with
      | zero => rw [retryRun_one_none delay ho]; simp
      | succ m =>
        rw [retryRun_two_none delay m ho]
        show List.Chain' (· < ·)
          (delay * (k + 1) :: (retryRun oracle delay (m + 1) (k + 1)).2.2)
        rw [List.chain'_cons']
        refine ⟨?_, ih (k + 1)⟩
        intro y hy
        have hy2 := retryRun_sleeps_head oracle delay (m + 1) (k + 1) y hy
        rw [hy2]
        apply mul_lt_mul_of_pos_left _ hd
        push_cast
        linarith

theorem retryRun_first_success {α : Type} (oracle : Nat → Option α) (delay : ℚ) :
    ∀ fuel k j v, j < fuel → oracle (k + j) = some v →
      (∀ j', j' < j → oracle (k + j') = none) →
      (retryRun oracle delay fuel k).1 = some v := by
  intro fuel
  induction fuel with
  | zero =>
    intro k j v hj
    omega
  | succ n ih =>
    intro k j v hj hsucc hprev
    cases j with
    | zero =>
      rw [Nat.add_zero] at hsucc
      rw [retryRun_succ_some delay n hsucc]
    | succ j' =>
      have h0 : oracle k = none := by
        have := hprev 0 (Nat.succ_pos j')
        rwa [Nat.add_zero] at this
      cases n with
      | zero => omega
      | succ m =>
        rw [retryRun_two_none delay m h0]
        show (retryRun oracle delay (m + 1) (k + 1)).1 = some v
        apply ih (k + 1) j' v (by omega)
        · rw [show k + 1 + j' = k + (j' + 1) from by omega]
          exact hsucc
        · intro t ht
          rw [show k + 1 + t = k + (t + 1) from by omega]
          exact hprev (t + 1) (by omega)

theorem retryRun_none_iff {α : Type} (oracle : Nat → Option α) (delay : ℚ) :
    ∀ fuel k, ((retryRun oracle delay fuel k).1 = none ↔
      ∀ j, j < fuel → oracle (k + j) = none) := by
  intro fuel
  induction fuel with
  | zero =>
    intro k
    rw [retryRun_zero]
    simp
  | succ n ih =>
    intro k
    cases ho : oracle k with
    | some v =>
      rw [retryRun_succ_some delay n ho]
      constructor
      · intro h
        exact absurd h (by simp)
      · intro h
        have := h 0 (Nat.succ_pos n)
        rw [Nat.add_zero, ho] at this
        exact absurd this (by simp)
    | none =>
      cases n with
      | zero =>
        rw [retryRun_one_none delay ho]
        constructor
        · intro _ j hj
          have hj0 : j = 0 := by omega
          rw [hj0, Nat.add_zero]
          exact ho
        · intro _
          rfl
      | succ m =>
        rw [retryRun_two_none delay m ho]
        show ((retryRun oracle delay (m + 1) (k + 1)).1 = none ↔ _)
        rw [ih (k + 1)]
        constructor
        · intro h j hj
          cases j with
          | zero => rw [Nat.add_zero]; exact ho
          | succ t =>
            rw [show k + (t + 1) = k + 1 + t from by omega]
            exact h t (by omega)
        · intro h j hj
          rw [show k + 1 + j = k + (j + 1) from by omega]
          exact h (j + 1) (by omega)

/-- C6: `tts_with_retry_to_audiosegment` makes at most `retries` attempts,
the sleeps between consecutive attempts are strictly increasing (for a
positive `delay`; the code always uses `delay = 1.2`), the first successful
attempt's result is returned, and the fatal `RuntimeError` is raised if and
only if every attempt fails. -/
theorem tts_retry_correct {α : Type} (oracle : Nat → Option α) (retries : Nat)
    (delay : ℚ) (hd : 0 < delay) :
    (tts_with_retry_to_audiosegment oracle retries delay).2.1 ≤ retries ∧
    List.Chain' (· < ·) (tts_with_retry_to_audiosegment oracle retries delay).2.2 ∧
    (∀ j v, j < retries → oracle j = some v →
       (∀ j', j' < j → oracle j' = none) →
       (tts_with_retry_to_audiosegment oracle retries delay).1 = Except.ok v) ∧
    ((∃ e, (tts_with_retry_to_audiosegment oracle retries delay).1 =
        Except.error e) ↔ ∀ j, j < retries → oracle j = none) := by
  refine ⟨retryRun_attempts_le oracle delay retries 0,
          retryRun_sleeps_chain oracle delay hd retries 0, ?_, ?_⟩
  · intro j v hj hsucc hprev
    have h1 : (retryRun oracle delay retries 0).1 = some v := by
      apply retryRun_first_success oracle delay retries 0 j v hj
      · rwa [Nat.zero_add]
      · intro t ht
        rw [Nat.zero_add]
        exact hprev t ht
    unfold tts_with_retry_to_audiosegment
    rw [h1]
    rfl
  · unfold tts_with_retry_to_audiosegment
    constructor
    · rintro ⟨e, he⟩
      have h1 : (retryRun oracle delay retries 0).1 = none := by
        cases hr : (retryRun oracle delay retries 0).1 with
        | none => rfl
        | some v =>
          rw [hr] at he
          exact absurd he (by simp [Option.elim])
      have h2 := (retryRun_none_iff oracle delay retries 0).mp h1
      intro j hj
      have h3 := h2 j hj
      rwa [Nat.zero_add] at h3
    · intro hall
      have h1 : (retryRun oracle delay retries 0).1 = none := by
        apply (retryRun_none_iff oracle delay retries 0).mpr
        intro j hj
        rw [Nat.zero_add]
        exact hall j hj
      rw [h1]
      exact ⟨"TTS failed", rfl⟩

/-- Witness for C6 with the source's default budget (`retries=3`,
`delay=1.2`) on an oracle succeeding at attempt 1: at most 3 attempts are
made and the successful attempt's value is returned. -/
theorem tts_retry_correct_witness :
    (0 : ℚ) < 6 / 5 ∧
    (tts_with_retry_to_audiosegment attemptOracle 3 (6 / 5)).2.1 ≤ 3 ∧
    (tts_with_retry_to_audiosegment attemptOracle 3 (6 / 5)).1 = Except.ok 42 := by
  have h := tts_retry_correct attemptOracle 3 (6 / 5) (by norm_num)
  exact ⟨by norm_num, h.1, h.2.2.1 1 42 (by decide) (by decide) (by decide)⟩

/-- C7: the run is all-or-nothing.  If the chosen builder fails fatally,
`main` writes neither the audio file nor the timeline sidecar; the timeline
sidecar is written only when the audio export succeeded, and then the write
order is audio first, sidecar second; on a successful build and export both
are written in that order. -/
theorem main_all_or_nothing (s : Settings) (tts : String → Option Nat)
    (exOk : Bool) :
    (∀ e, builderFor s tts = Except.error e → (mainRun s tts exOk).1 = []) ∧
    (FileWrite.timeline ∈ (mainRun s tts exOk).1 →
       exOk = true ∧
       (mainRun s tts exOk).1 = [FileWrite.audio, FileWrite.timeline]) ∧
    (∀ st, builderFor s tts = Except.ok st → exOk = true →
       (mainRun s tts exOk).1 = [FileWrite.audio, FileWrite.timeline]) := by
  unfold mainRun
  cases hb : builderFor s tts with
  | error e =>
    refine ⟨fun _ _ => rfl, ?_, ?_⟩
    · intro hmem
      simp at hmem
    · intro st hst
      exact absurd hst (exceptBindOkNe _ _)
  | ok st =>
    cases exOk with
    | false =>
      refine ⟨?_, ?_, ?_⟩
      · intro e he
        exact absurd he.symm (exceptBindOkNe _ _)
      · intro hmem
        simp at hmem
      · intro st2 _ hfalse
        exact absurd hfalse (by simp)
    | true =>
      refine ⟨?_, fun _ => ⟨rfl, rfl⟩, fun _ _ _ => rfl⟩
      intro e he
      exact absurd he.symm (exceptBindOkNe _ _)

/-- Witness for C7: with an oracle that always fails, the build fails and
`main` writes no file at all. -/
theorem main_all_or_nothing_witness :
    (mainRun defaultSettings ttsNone true).1 = [] :=
  (main_all_or_nothing defaultSettings ttsNone true).1 "TTS failed for rest" rfl

/-- C8: after a call to `tts_cached` has stored a result for a
`(lang, tld, text)` triple, a second call with the identical triple performs
no new synthesis (the `mp3_path.exists()` branch hits) and returns the same
cached bytes — whatever hash function and synthesizer are plugged in, so in
particular for MD5 across runs over the persisted cache. -/
theorem tts_cached_no_resynthesis {β : Type} (md5 : String → String)
    (synth : String → β) (cache : String → Option β) (lang tld text : String) :
    (tts_cached md5 synth
        (tts_cached md5 synth cache lang tld text).2.1 lang tld text).2.2 =
      false ∧
    (tts_cached md5 synth
        (tts_cached md5 synth cache lang tld text).2.1 lang tld text).1 =
      (tts_cached md5 synth cache lang tld text).1 := by
  unfold tts_cached
  cases hc : cache (md5 (cacheKeyString lang tld text)) with
  | some b => simp [hc]
  | none => simp [hc]

/-- C10: the cache key string `f"{lang}|{tld}|{text}"` does not escape the
delimiter, so the key function is not injective: the distinct triples
`("a", "b", "c|t")` and `("a|b", "c", "t")` share the key string (hence the
same MD5 key for any hash), and after caching the first triple's speech a
`tts_cached` call for the second triple performs no synthesis and returns
the audio synthesized for the first triple's text `"c|t"`, not its own
text `"t"`. -/
theorem cache_key_not_injective (md5 : String → String) :
    cacheKeyString "a" "b" "c|t" = cacheKeyString "a|b" "c" "t" ∧
    (("a", "b", "c|t") : String × String × String) ≠ ("a|b", "c", "t") ∧
    (tts_cached md5 (fun t => t)
        (tts_cached md5 (fun t => t) (fun _ => none) "a" "b" "c|t").2.1
        "a|b" "c" "t").1 = "c|t" ∧
    (tts_cached md5 (fun t => t)
        (tts_cached md5 (fun t => t) (fun _ => none) "a" "b" "c|t").2.1
        "a|b" "c" "t").2.2 = false ∧
    ("c|t" : String) ≠ "t" := by
  have hk : cacheKeyString "a" "b" "c|t" = cacheKeyString "a|b" "c" "t" := by
    decide
  refine ⟨hk, by decide, ?_, ?_, by decide⟩ <;>
    · unfold tts_cached
      rw [← hk]
      simp

theorem leadInPhase_calls {s : Settings} {tts : String → Option Nat}
    {st st' : BuildState} (h : leadInPhase s tts st = Except.ok st') :
    ∃ l, st'.calls = st.calls ++ l ∧ ∀ t, TtsCall.restPre t ∉ l := by
  unfold leadInPhase at h
  split at h
  · split at h
    · exact absurd h (exceptBindOkNe _ _)
    · rename_i ll st1 heq
      rcases doTts_ok heq with ⟨rfl, -⟩
      split at h
      · cases Except.ok.inj h
        exact ⟨[TtsCall.leadIn (s.lead_in.getD "")], rfl, by intro t; simp⟩
      · cases Except.ok.inj h
        exact ⟨[TtsCall.leadIn (s.lead_in.getD "")], rfl, by intro t; simp⟩
  · cases Except.ok.inj h
    exact ⟨[], (List.append_nil _).symm, by intro t; simp⟩

theorem endPhase_calls {s : Settings} {tts : String → Option Nat}
    {st st' : BuildState} (h : endPhase s tts st = Except.ok st') :
    ∃ l, st'.calls = st.calls ++ l ∧ ∀ t, TtsCall.restPre t ∉ l := by
  unfold endPhase at h
  split at h
  · split at h
    · exact absurd h (exceptBindOkNe _ _)
    · rename_i el st1 heq
      rcases doTts_ok heq with ⟨rfl, -⟩
      cases Except.ok.inj h
      exact ⟨[TtsCall.endPhrase (s.end_with.getD "")], rfl, by intro t; simp⟩
  · cases Except.ok.inj h
    exact ⟨[], (List.append_nil _).symm, by intro t; simp⟩

theorem speakPhase_calls {s : Settings} {tts : String → Option Nat} {i : Int}
    {st st' : BuildState} (h : speakPhase s tts i st = Except.ok st') :
    ∃ l, st'.calls = st.calls ++ l ∧ ∀ t, TtsCall.restPre t ∉ l := by
  unfold speakPhase at h
  split at h
  · split at h
    · exact absurd h (exceptBindOkNe _ _)
    · rename_i sp st1 heq
      rcases doTts_ok heq with ⟨rfl, -⟩
      cases Except.ok.inj h
      exact ⟨[TtsCall.spoken (minuteSpokenText s i)], rfl, by intro t; simp⟩
  · cases Except.ok.inj h
    exact ⟨[], (List.append_nil _).symm, by intro t; simp⟩

theorem restAppend_calls (st : BuildState) (label : String) (rl : Option Nat) :
    (restAppend st label rl).calls = st.calls := by
  cases rl with
  | some r =>
    show (if r ≠ 0 then appendSeg st label r else st).calls = st.calls
    by_cases hr : r ≠ 0
    · rw [if_pos hr]; rfl
    · rw [if_neg hr]
  | none => rfl

theorem stepNumbers_calls {s : Settings} {tts : String → Option Nat}
    {bl rl : Nat} {st : BuildState} {i : Int} {st' : BuildState}
    (h : stepNumbers s tts bl rl st i = Except.ok st') :
    ∃ l, st'.calls = st.calls ++ l ∧ ∀ t, TtsCall.restPre t ∉ l := by
  unfold stepNumbers at h
  split at h
  · exact absurd h (exceptBindOkNe _ _)
  · rename_i sp st1 heq
    rcases doTts_ok heq with ⟨rfl, -⟩
    split at h
    · rcases endPhase_calls h with ⟨l2, hc2, hn2⟩
      refine ⟨[TtsCall.spoken (toString i)] ++ l2, ?_, ?_⟩
      · rw [hc2]
        show (st.calls ++ [TtsCall.spoken (toString i)]) ++ l2 =
          st.calls ++ ([TtsCall.spoken (toString i)] ++ l2)
        rw [List.append_assoc]
      · intro t hmem
        rcases List.mem_append.mp hmem with h1 | h1
        · simp at h1
        · exact hn2 t h1
    · split at h
      · split at h
        · cases Except.ok.inj h
          exact ⟨[TtsCall.spoken (toString i)], rfl, by intro t; simp⟩
        · cases Except.ok.inj h
          exact ⟨[TtsCall.spoken (toString i)], rfl, by intro t; simp⟩
      · cases Except.ok.inj h
        exact ⟨[TtsCall.spoken (toString i)], rfl, by intro t; simp⟩

theorem stepMinutes_calls {s : Settings} {tts : String → Option Nat}
    {bl : Nat} {rl : Option Nat} {st : BuildState} {i : Int} {st' : BuildState}
    (h : stepMinutes s tts bl rl st i = Except.ok st') :
    ∃ l, st'.calls = st.calls ++ l ∧ ∀ t, TtsCall.restPre t ∉ l := by
  unfold stepMinutes at h
  split at h
  · exact absurd h (exceptBindOkNe _ _)
  · rename_i st1 heq
    rcases speakPhase_calls heq with ⟨l1, hc1, hn1⟩
    have comb : ∀ l2, st1.calls ++ l2 = st.calls ++ (l1 ++ l2) := by
      intro l2
      rw [hc1, List.append_assoc]
    split at h
    · rcases endPhase_calls h with ⟨l2, hc2, hn2⟩
      refine ⟨l1 ++ l2, by rw [hc2, comb l2], ?_⟩
      intro t hmem
      rcases List.mem_append.mp hmem with h1 | h1
      · exact hn1 t h1
      · exact hn2 t h1
    · split at h
      · split at h
        · cases Except.ok.inj h
          refine ⟨l1, ?_, hn1⟩
          show st1.calls = st.calls ++ l1
          exact hc1
        · cases Except.ok.inj h
          refine ⟨l1, ?_, hn1⟩
          show (restAppend st1 s.rest_text rl).calls = st.calls ++ l1
          rw [restAppend_calls]
          exact hc1
      · cases Except.ok.inj h
        exact ⟨l1, hc1, hn1⟩

theorem runSteps_calls {step : BuildState → Int → Except String BuildState}
    (hstep : ∀ st i st', step st i = Except.ok st' →
      ∃ l, st'.calls = st.calls ++ l ∧ ∀ t, TtsCall.restPre t ∉ l) :
    ∀ (l : List Int) (st st' : BuildState),
      runSteps step l st = Except.ok st' →
      ∃ suffl, st'.calls = st.calls ++ suffl ∧ ∀ t, TtsCall.restPre t ∉ suffl := by
  intro l
  induction l with
  | nil =>
    intro st st' h
    cases Except.ok.inj h
    exact ⟨[], (List.append_nil _).symm, by intro t; simp⟩
  | cons i rest ih =>
    intro st st' h
    unfold runSteps at h
    split at h
    · exact absurd h (exceptBindOkNe _ _)
    · rename_i st1 heq
      rcases hstep st i st1 heq with ⟨l1, hc1, hn1⟩
      rcases ih st1 st' h with ⟨l2, hc2, hn2⟩
      refine ⟨l1 ++ l2, by rw [hc2, hc1, List.append_assoc], ?_⟩
      intro t hmem
      rcases List.mem_append.mp hmem with h1 | h1
      · exact hn1 t h1
      · exact hn2 t h1

/-- C9: the numbers-mode builder synthesizes the rest phrase unconditionally
before the loop (its first synthesis call is always for `rest_text`, and a
failure to synthesize it aborts the whole build, even though `every_n = 0`
would never play it); the minutes-mode builder with `every_n ≤ 0` never
issues a rest-precompute synthesis call at all. -/
theorem rest_synthesis_asymmetry (s : Settings) (tts : String → Option Nat) :
    (tts s.rest_text = none →
       build_countdown_audio s tts =
         Except.error ("TTS failed for " ++ s.rest_text)) ∧
    (∀ st, build_countdown_audio s tts = Except.ok st →
       st.calls.head? = some (TtsCall.restPre s.rest_text)) ∧
    (s.every_n ≤ 0 → ∀ st, build_minutes_countdown s tts = Except.ok st →
       ∀ t, TtsCall.restPre t ∉ st.calls) := by
  refine ⟨?_, ?_, ?_⟩
  · intro hrest
    unfold build_countdown_audio
    rw [doTts_spec, hrest]
  · intro st hok
    unfold build_countdown_audio at hok
    split at hok
    · exact absurd hok (exceptBindOkNe _ _)
    · rename_i rl stA heq
      rcases doTts_ok heq with ⟨rfl, -⟩
      split at hok
      · exact absurd hok (exceptBindOkNe _ _)
      · rename_i stB heqL
        rcases leadInPhase_calls heqL with ⟨l1, hc1, -⟩
        rcases runSteps_calls (fun _ _ _ a => stepNumbers_calls a) _ _ _ hok
          with ⟨l2, hc2, -⟩
        rw [hc2, hc1]
        rfl
  · intro hev st hok t hmem
    unfold build_minutes_countdown at hok
    split at hok
    · exact absurd hok (exceptBindOkNe _ _)
    · rename_i rl stA heqP
      unfold minutesRestPre at heqP
      rw [if_neg (by omega : ¬s.every_n > 0)] at heqP
      have hA : initState = stA := by
        have h2 := congrArg Prod.snd (Except.ok.inj heqP)
        exact h2
      split at hok
      · exact absurd hok (exceptBindOkNe _ _)
      · rename_i stB heqL
        rcases leadInPhase_calls heqL with ⟨l1, hc1, hn1⟩
        rcases runSteps_calls (fun _ _ _ a => stepMinutes_calls a) _ _ _ hok
          with ⟨l2, hc2, hn2⟩
        rw [hc2, hc1, ← hA] at hmem
        have hmem2 : TtsCall.restPre t ∈ l1 ++ l2 := by
          have : initState.calls ++ l1 ++ l2 = l1 ++ l2 := by
            show [] ++ l1 ++ l2 = l1 ++ l2
            rw [List.nil_append]
          rwa [this] at hmem
        rcases List.mem_append.mp hmem2 with h1 | h1
        · exact hn1 t h1
        · exact hn2 t h1

/-- Witness for C9: with rests disabled (`every_n = 0`) and an oracle that
cannot synthesize anything, the numbers-mode build still fails fatally on the
rest phrase it would never play. -/
theorem rest_synthesis_asymmetry_witness :
    build_countdown_audio sNumNoRest ttsNone =
      Except.error ("TTS failed for " ++ "rest") :=
  (rest_synthesis_asymmetry sNumNoRest ttsNone).1 rfl
